import Mathlib

/-!
Shallow embedding of the waveform-synthesis and PCM-encoding core of
the `spirit` repository (`src/spirit/__main__.py`).

Modelling conventions:
* Python floats (durations, frequencies, amplitudes) are modelled as
  exact rationals; audio sample values live in `ℝ` (the sinusoids).
* A NumPy 1-d array is a length `n` together with a sample function
  `ℕ → ℝ` (or `ℕ → ℚ` for the rational time grid); only indices below
  `n` are meaningful.
* NumPy calls that raise are modelled with `Except String`:
  `np.linspace` with a negative sample count raises `ValueError`, and
  assigning a length-22050 linear ramp into a shorter slice of the
  envelope array (in `generate_om_tone`) raises a broadcast
  `ValueError`.
* Python `int()` truncates toward zero; NumPy `.astype(np.int16)`
  truncates toward zero and wraps modulo `2^16` on overflow.
-/

namespace Spirit

/-- Sample rate constant of the source, `SAMPLE_RATE = 44100`. -/
def SAMPLE_RATE : ℚ := 44100

/-- Python `int()` applied to a float: truncation toward zero. -/
def pyInt (x : ℚ) : ℤ := if 0 ≤ x then ⌊x⌋ else ⌈x⌉

/-- A mono NumPy array with rational entries (the time grid). -/
structure RatBuffer where
  n : ℕ
  sample : ℕ → ℚ

/-- A mono NumPy array of real audio samples. -/
structure Buffer where
  n : ℕ
  sample : ℕ → ℝ

/-- A stereo NumPy array, as produced by `np.column_stack`. -/
structure StereoBuffer where
  n : ℕ
  left : ℕ → ℝ
  right : ℕ → ℝ

/-- Error message for a negative sample count in `np.linspace`. -/
def linspace_msg : String := "ValueError: Number of samples must be non-negative."

/-- Error message for a NumPy broadcast failure on slice assignment. -/
def broadcast_msg : String := "ValueError: could not broadcast input array into slice."

/-- Model of the grid construction shared by every generator:
`np.linspace(0, duration, int(SAMPLE_RATE * duration), False)`.
With endpoint excluded the i-th value is `duration * i / num`; a
negative sample count raises `ValueError`. -/
def np_linspace0 (duration : ℚ) : Except String RatBuffer :=
  let num : ℤ := pyInt (SAMPLE_RATE * duration)
  if num < 0 then Except.error linspace_msg
  else Except.ok ⟨num.toNat, fun i => duration * i / (num.toNat : ℚ)⟩

/-- The value at index `j` of `np.linspace(a, b, num)` with the default
inclusive endpoint: step `(b - a)/(num - 1)`. -/
def np_linspace_incl (a b : ℚ) (num : ℕ) (j : ℕ) : ℚ :=
  a + (b - a) * j / ((num : ℚ) - 1)

/-- Length of a (possibly failed) rational buffer. -/
def rbufN : Except String RatBuffer → ℕ
  | Except.ok b => b.n
  | Except.error _ => 0

/-- Sample accessor of a (possibly failed) rational buffer. -/
def rbufSample : Except String RatBuffer → ℕ → ℚ
  | Except.ok b => b.sample
  | Except.error _ => fun _ => 0

/-- Number of points of the time grid for a given duration. -/
def gridN (duration : ℚ) : ℕ := rbufN (np_linspace0 duration)

/-- The i-th time point of the grid for a given duration. -/
def time_t (duration : ℚ) (i : ℕ) : ℚ := rbufSample (np_linspace0 duration) i

/-- Whether a fallible computation succeeded. -/
def isOkE {α : Type} : Except String α → Bool
  | Except.ok _ => true
  | Except.error _ => false

/-- Length of a (possibly failed) real buffer. -/
def bufN : Except String Buffer → ℕ
  | Except.ok b => b.n
  | Except.error _ => 0

/-- Sample accessor of a (possibly failed) real buffer. -/
noncomputable def bufSample : Except String Buffer → ℕ → ℝ
  | Except.ok b => b.sample
  | Except.error _ => fun _ => 0

/-- Length of a (possibly failed) stereo buffer. -/
def sbufN : Except String StereoBuffer → ℕ
  | Except.ok b => b.n
  | Except.error _ => 0

/-- Model of `generate_sine_wave(frequency, duration, amplitude=0.8)`:
`amplitude * np.sin(2 * np.pi * frequency * t)` over the time grid. -/
noncomputable def generate_sine_wave (frequency duration : ℚ)
    (amplitude : ℚ := 8/10) : Except String Buffer :=
  (np_linspace0 duration).map fun t =>
    ⟨t.n, fun i =>
      (amplitude : ℝ) * Real.sin (2 * Real.pi * (frequency : ℝ) * (t.sample i : ℝ))⟩

/-- Model of `generate_binaural_beat(base_freq, beat_freq, duration,
amplitude=0.8)`: left channel at `base_freq`, right at `base_freq +
beat_freq`, stacked as a stereo buffer. -/
noncomputable def generate_binaural_beat (base_freq beat_freq duration : ℚ)
    (amplitude : ℚ := 8/10) : Except String StereoBuffer :=
  (np_linspace0 duration).map fun t =>
    ⟨t.n,
     fun i => (amplitude : ℝ) * Real.sin (2 * Real.pi * (base_freq : ℝ) * (t.sample i : ℝ)),
     fun i => (amplitude : ℝ) *
       Real.sin (2 * Real.pi * ((base_freq + beat_freq : ℚ) : ℝ) * (t.sample i : ℝ))⟩

/-- Model of `np.clip(x, lo, hi)`. -/
noncomputable def np_clip (x lo hi : ℝ) : ℝ := min (max x lo) hi

/-- Model of `generate_isochronic_tone(frequency, pulse_freq, duration,
amplitude=0.8)`: carrier sinusoid times the clipped pulsing envelope
`np.clip(0.5 * (1 + sin(2 pi pulse_freq t)), 0, 1)`. -/
noncomputable def generate_isochronic_tone (frequency pulse_freq duration : ℚ)
    (amplitude : ℚ := 8/10) : Except String Buffer :=
  (np_linspace0 duration).map fun t =>
    ⟨t.n, fun i =>
      let carrier : ℝ := Real.sin (2 * Real.pi * (frequency : ℝ) * (t.sample i : ℝ))
      let envelope : ℝ :=
        np_clip ((1/2) * (1 + Real.sin (2 * Real.pi * (pulse_freq : ℝ) * (t.sample i : ℝ)))) 0 1
      (amplitude : ℝ) * carrier * envelope⟩

/-- Model of `generate_frequency_sweep(start_freq, end_freq, duration,
amplitude=0.8)`: the linear chirp with quadratic integral phase
`2 pi (start t + (end - start) t^2 / (2 duration))`. -/
noncomputable def generate_frequency_sweep (start_freq end_freq duration : ℚ)
    (amplitude : ℚ := 8/10) : Except String Buffer :=
  (np_linspace0 duration).map fun t =>
    ⟨t.n, fun i =>
      let ti : ℝ := (t.sample i : ℝ)
      let phase : ℝ := 2 * Real.pi *
        ((start_freq : ℝ) * ti + ((end_freq - start_freq : ℚ) : ℝ) * ti ^ 2 / (2 * (duration : ℝ)))
      (amplitude : ℝ) * Real.sin phase⟩

/-- Model of `generate_layered_frequencies(frequencies, duration,
amplitude=0.8)`: the accumulation loop `wave += sin(2 pi f t)` over the
listed frequencies is the sum of the mapped list, then
`amplitude * wave / len(frequencies)`. -/
noncomputable def generate_layered_frequencies (frequencies : List ℚ) (duration : ℚ)
    (amplitude : ℚ := 8/10) : Except String Buffer :=
  (np_linspace0 duration).map fun t =>
    ⟨t.n, fun i =>
      (amplitude : ℝ) *
        ((frequencies.map fun (f : ℚ) => Real.sin (2 * Real.pi * (f : ℝ) * (t.sample i : ℝ))).sum)
        / (frequencies.length : ℝ)⟩

/-- The fade length of the Om envelope, `int(SAMPLE_RATE * 0.5)`. -/
def fade_samples : ℤ := pyInt (SAMPLE_RATE * (5/10))

/-- The Om amplitude envelope after the two sequential slice
assignments `envelope[:fade] = np.linspace(0, 1, fade)` and
`envelope[-fade:] = np.linspace(1, 0, fade)` on `np.ones_like(t)`;
the fade-out assignment happens second, so its write wins where the
two windows overlap. -/
def om_envelope (n : ℕ) (i : ℕ) : ℚ :=
  let fd : ℕ := fade_samples.toNat
  let afterFadeIn : ℚ := if i < fd then np_linspace_incl 0 1 fd i else 1
  if n - fd ≤ i ∧ i < n then np_linspace_incl 1 0 fd (i - (n - fd)) else afterFadeIn

/-- Model of `generate_om_tone(duration, amplitude=0.8)`: harmonic
stack on the 136.1 Hz base, enveloped and divided by 1.75.  Assigning
the length-`fade_samples` ramps into the envelope slices raises a
broadcast `ValueError` when the buffer is shorter than the ramp. -/
noncomputable def generate_om_tone (duration : ℚ)
    (amplitude : ℚ := 8/10) : Except String Buffer :=
  (np_linspace0 duration).bind fun t =>
    if (t.n : ℤ) < fade_samples then Except.error broadcast_msg
    else Except.ok
      ⟨t.n, fun i =>
        let ti : ℝ := (t.sample i : ℝ)
        let wave : ℝ := Real.sin (2 * Real.pi * ((1361/10 : ℚ) : ℝ) * ti)
          + (1/2) * Real.sin (2 * Real.pi * (((1361/10 : ℚ) * 2 : ℚ) : ℝ) * ti)
          + (1/4) * Real.sin (2 * Real.pi * (((1361/10 : ℚ) * 3 : ℚ) : ℝ) * ti)
        (amplitude : ℝ) * wave * ((om_envelope t.n i : ℚ) : ℝ) / (7/4)⟩

/-- Truncation toward zero of a real number, the conversion a C-style
float-to-integer cast performs. -/
noncomputable def py_trunc (x : ℝ) : ℤ := if 0 ≤ x then ⌊x⌋ else ⌈x⌉

/-- Wrap an integer into the signed 16-bit range modulo `2^16`. -/
def int16_wrap (z : ℤ) : ℤ := (z + 32768) % 65536 - 32768

/-- Model of NumPy `.astype(np.int16)` on a float value: truncation
toward zero followed by wrap-around modulo `2^16` (not saturation). -/
noncomputable def astype_int16 (x : ℝ) : ℤ := int16_wrap (py_trunc x)

/-- The per-sample conversion of `save_wav`:
`(audio_data * 32767).astype(np.int16)`. -/
noncomputable def save_wav_sample (s : ℝ) : ℤ := astype_int16 (s * 32767)

/-- The fixed-point buffer written by `save_wav`. -/
noncomputable def save_wav_encode (b : Buffer) : ℕ → ℤ :=
  fun i => save_wav_sample (b.sample i)

/-- Modelled from the spec: the container read (decoder) is not part of
`src/`; the spec defines decoding a 16-bit sample as division by
32767. -/
noncomputable def decode_pcm16 (z : ℤ) : ℝ := (z : ℝ) / 32767

/-! ## Helper lemmas -/

lemma pyInt_eq_floor {x : ℚ} (h : 0 ≤ x) : pyInt x = ⌊x⌋ := if_pos h

lemma pyInt_nonneg {x : ℚ} (h : 0 ≤ x) : 0 ≤ pyInt x := by
  rw [pyInt_eq_floor h]
  exact Int.floor_nonneg.mpr h

lemma pyInt_neg {x : ℚ} (h : x ≤ -1) : pyInt x < 0 := by
  rw [pyInt, if_neg (by push_neg; linarith)]
  have h2 : ⌈x⌉ ≤ -1 := Int.ceil_le.mpr (by exact_mod_cast h)
  omega

lemma pyInt_eq_zero {x : ℚ} (h1 : x ≤ 0) (h2 : -1 < x) : pyInt x = 0 := by
  rcases eq_or_lt_of_le h1 with he | hlt
  · rw [he, pyInt]
    simp
  · rw [pyInt, if_neg (not_le.mpr hlt)]
    have h3 : ⌈x⌉ ≤ 0 := Int.ceil_le.mpr (by exact_mod_cast h1)
    have h4 : (-1 : ℤ) < ⌈x⌉ := Int.lt_ceil.mpr (by exact_mod_cast h2)
    omega

lemma np_linspace0_eq_ok (d : ℚ) (h : 0 ≤ pyInt (SAMPLE_RATE * d)) :
    np_linspace0 d = Except.ok ⟨(pyInt (SAMPLE_RATE * d)).toNat,
      fun i => d * i / (((pyInt (SAMPLE_RATE * d)).toNat : ℕ) : ℚ)⟩ := by
  simp only [np_linspace0]
  rw [if_neg (by omega)]

lemma np_linspace0_eq_error (d : ℚ) (h : pyInt (SAMPLE_RATE * d) < 0) :
    np_linspace0 d = Except.error linspace_msg := by
  simp only [np_linspace0]
  rw [if_pos h]

lemma fade_samples_eq : fade_samples = 22050 := by
  have : SAMPLE_RATE * (5/10) = 22050 := by norm_num [SAMPLE_RATE]
  rw [fade_samples, this, pyInt_eq_floor (by norm_num)]
  norm_num

lemma gridN_eq (d : ℚ) (h : 0 ≤ pyInt (SAMPLE_RATE * d)) :
    gridN d = (pyInt (SAMPLE_RATE * d)).toNat := by
  rw [gridN, np_linspace0_eq_ok d h, rbufN]

lemma gridN_one : gridN 1 = 44100 := by
  have h : pyInt (SAMPLE_RATE * 1) = 44100 := by
    rw [pyInt_eq_floor (by norm_num [SAMPLE_RATE])]
    norm_num [SAMPLE_RATE]
  rw [gridN_eq 1 (by omega), h]
  rfl

lemma SAMPLE_RATE_nonneg : (0 : ℚ) ≤ SAMPLE_RATE := by norm_num [SAMPLE_RATE]

lemma map_ok {α β : Type} (f : α → β) (b : α) :
    Except.map f (Except.ok b : Except String α) = Except.ok (f b) := rfl

lemma map_error {α β : Type} (f : α → β) (e : String) :
    Except.map f (Except.error e : Except String α) = (Except.error e : Except String β) := rfl

lemma bind_ok {α β : Type} (b : α) (f : α → Except String β) :
    Except.bind (Except.ok b) f = f b := rfl

lemma bind_error {α β : Type} (e : String) (f : α → Except String β) :
    Except.bind (Except.error e) f = (Except.error e : Except String β) := rfl

lemma isOkE_ok {α : Type} (b : α) : isOkE (Except.ok b : Except String α) = true := rfl

lemma isOkE_error {α : Type} (e : String) :
    isOkE (Except.error e : Except String α) = false := rfl

lemma bufN_ok (b : Buffer) : bufN (Except.ok b) = b.n := rfl

lemma bufN_error (e : String) : bufN (Except.error e) = 0 := rfl

lemma bufSample_ok (b : Buffer) : bufSample (Except.ok b) = b.sample := rfl

lemma sbufN_ok (b : StereoBuffer) : sbufN (Except.ok b) = b.n := rfl

lemma sbufN_error (e : String) : sbufN (Except.error e) = 0 := rfl

lemma rbufN_ok (b : RatBuffer) : rbufN (Except.ok b) = b.n := rfl

lemma rbufSample_ok (b : RatBuffer) : rbufSample (Except.ok b) = b.sample := rfl

lemma generate_om_tone_eq_error (d a : ℚ) (h0 : 0 ≤ pyInt (SAMPLE_RATE * d))
    (hfa : ((pyInt (SAMPLE_RATE * d)).toNat : ℤ) < fade_samples) :
    generate_om_tone d a = Except.error broadcast_msg := by
  rw [generate_om_tone, np_linspace0_eq_ok d h0, bind_ok]
  exact if_pos hfa

lemma generate_om_tone_eq_ok (d a : ℚ) (h0 : 0 ≤ pyInt (SAMPLE_RATE * d))
    (hfa : ¬ ((pyInt (SAMPLE_RATE * d)).toNat : ℤ) < fade_samples) :
    generate_om_tone d a = Except.ok
      ⟨(pyInt (SAMPLE_RATE * d)).toNat, fun i =>
        (a : ℝ) *
          (Real.sin (2 * Real.pi * ((1361/10 : ℚ) : ℝ) *
              ((d * i / (((pyInt (SAMPLE_RATE * d)).toNat : ℕ) : ℚ) : ℚ) : ℝ)) +
            (1/2) * Real.sin (2 * Real.pi * (((1361/10 : ℚ) * 2 : ℚ) : ℝ) *
              ((d * i / (((pyInt (SAMPLE_RATE * d)).toNat : ℕ) : ℚ) : ℚ) : ℝ)) +
            (1/4) * Real.sin (2 * Real.pi * (((1361/10 : ℚ) * 3 : ℚ) : ℝ) *
              ((d * i / (((pyInt (SAMPLE_RATE * d)).toNat : ℕ) : ℚ) : ℚ) : ℝ))) *
          ((om_envelope (pyInt (SAMPLE_RATE * d)).toNat i : ℚ) : ℝ) / (7/4)⟩ := by
  rw [generate_om_tone, np_linspace0_eq_ok d h0, bind_ok]
  exact if_neg hfa

lemma sine_sample (f d a : ℚ) (h0 : 0 ≤ pyInt (SAMPLE_RATE * d)) (i : ℕ) :
    bufSample (generate_sine_wave f d a) i =
      (a : ℝ) * Real.sin (2 * Real.pi * (f : ℝ) *
        ((d * i / (((pyInt (SAMPLE_RATE * d)).toNat : ℕ) : ℚ) : ℚ) : ℝ)) := by
  rw [generate_sine_wave, np_linspace0_eq_ok d h0, map_ok, bufSample_ok]

lemma sweep_sample (s e d a : ℚ) (h0 : 0 ≤ pyInt (SAMPLE_RATE * d)) (i : ℕ) :
    bufSample (generate_frequency_sweep s e d a) i =
      (a : ℝ) * Real.sin (2 * Real.pi *
        ((s : ℝ) * ((d * i / (((pyInt (SAMPLE_RATE * d)).toNat : ℕ) : ℚ) : ℚ) : ℝ) +
          ((e - s : ℚ) : ℝ) *
            ((d * i / (((pyInt (SAMPLE_RATE * d)).toNat : ℕ) : ℚ) : ℚ) : ℝ) ^ 2 /
            (2 * (d : ℝ)))) := by
  rw [generate_frequency_sweep, np_linspace0_eq_ok d h0, map_ok, bufSample_ok]

lemma isochronic_sample (f p d a : ℚ) (h0 : 0 ≤ pyInt (SAMPLE_RATE * d)) (i : ℕ) :
    bufSample (generate_isochronic_tone f p d a) i =
      (a : ℝ) * Real.sin (2 * Real.pi * (f : ℝ) *
          ((d * i / (((pyInt (SAMPLE_RATE * d)).toNat : ℕ) : ℚ) : ℚ) : ℝ)) *
        np_clip ((1/2) * (1 + Real.sin (2 * Real.pi * (p : ℝ) *
          ((d * i / (((pyInt (SAMPLE_RATE * d)).toNat : ℕ) : ℚ) : ℚ) : ℝ)))) 0 1 := by
  rw [generate_isochronic_tone, np_linspace0_eq_ok d h0, map_ok, bufSample_ok]

lemma layered_sample (freqs : List ℚ) (d a : ℚ)
    (h0 : 0 ≤ pyInt (SAMPLE_RATE * d)) (i : ℕ) :
    bufSample (generate_layered_frequencies freqs d a) i =
      (a : ℝ) * ((freqs.map fun (f : ℚ) => Real.sin (2 * Real.pi * (f : ℝ) *
          ((d * i / (((pyInt (SAMPLE_RATE * d)).toNat : ℕ) : ℚ) : ℚ) : ℝ))).sum) /
        (freqs.length : ℝ) := by
  rw [generate_layered_frequencies, np_linspace0_eq_ok d h0, map_ok, bufSample_ok]

lemma abs_list_sum_le (l : List ℝ) (h : ∀ x ∈ l, |x| ≤ 1) :
    |l.sum| ≤ (l.length : ℝ) := by
  induction l with
  | nil => simp
  | cons x xs ih =>
    rw [List.sum_cons, List.length_cons]
    calc |x + xs.sum| ≤ |x| + |xs.sum| := abs_add _ _
      _ ≤ 1 + (xs.length : ℝ) :=
        add_le_add (h x (List.mem_cons_self x xs))
          (ih fun y hy => h y (List.mem_cons_of_mem _ hy))
      _ = ((xs.length + 1 : ℕ) : ℝ) := by push_cast; ring

lemma pyInt_SR_one : pyInt (SAMPLE_RATE * 1) = 44100 := by
  rw [pyInt_eq_floor (by norm_num [SAMPLE_RATE])]
  norm_num [SAMPLE_RATE]

lemma bufN_sweep (s e d a : ℚ) (h0 : 0 ≤ pyInt (SAMPLE_RATE * d)) :
    bufN (generate_frequency_sweep s e d a) = (pyInt (SAMPLE_RATE * d)).toNat := by
  rw [generate_frequency_sweep, np_linspace0_eq_ok d h0, map_ok, bufN_ok]

lemma bufN_isochronic (f p d a : ℚ) (h0 : 0 ≤ pyInt (SAMPLE_RATE * d)) :
    bufN (generate_isochronic_tone f p d a) = (pyInt (SAMPLE_RATE * d)).toNat := by
  rw [generate_isochronic_tone, np_linspace0_eq_ok d h0, map_ok, bufN_ok]

lemma bufN_layered (freqs : List ℚ) (d a : ℚ) (h0 : 0 ≤ pyInt (SAMPLE_RATE * d)) :
    bufN (generate_layered_frequencies freqs d a) = (pyInt (SAMPLE_RATE * d)).toNat := by
  rw [generate_layered_frequencies, np_linspace0_eq_ok d h0, map_ok, bufN_ok]

lemma time_t_eq (d : ℚ) (h0 : 0 ≤ pyInt (SAMPLE_RATE * d)) (i : ℕ) :
    time_t d i = d * i / (((pyInt (SAMPLE_RATE * d)).toNat : ℕ) : ℚ) := by
  rw [time_t, np_linspace0_eq_ok d h0, rbufSample_ok]

lemma om_sample (d a : ℚ) (h0 : 0 ≤ pyInt (SAMPLE_RATE * d))
    (hfa : ¬ ((pyInt (SAMPLE_RATE * d)).toNat : ℤ) < fade_samples) (i : ℕ) :
    bufSample (generate_om_tone d a) i =
      (a : ℝ) *
        (Real.sin (2 * Real.pi * ((1361/10 : ℚ) : ℝ) *
            ((d * i / (((pyInt (SAMPLE_RATE * d)).toNat : ℕ) : ℚ) : ℚ) : ℝ)) +
          (1/2) * Real.sin (2 * Real.pi * (((1361/10 : ℚ) * 2 : ℚ) : ℝ) *
            ((d * i / (((pyInt (SAMPLE_RATE * d)).toNat : ℕ) : ℚ) : ℚ) : ℝ)) +
          (1/4) * Real.sin (2 * Real.pi * (((1361/10 : ℚ) * 3 : ℚ) : ℝ) *
            ((d * i / (((pyInt (SAMPLE_RATE * d)).toNat : ℕ) : ℚ) : ℚ) : ℝ))) *
        ((om_envelope (pyInt (SAMPLE_RATE * d)).toNat i : ℚ) : ℝ) / (7/4) := by
  rw [generate_om_tone_eq_ok d a h0 hfa, bufSample_ok]

lemma om_envelope_eq (n i : ℕ) (hn : 22050 ≤ n) (hi : i < n) :
    om_envelope n i =
      if n - 22050 ≤ i then 1 - ((i - (n - 22050) : ℕ) : ℚ) / 22049
      else if i < 22050 then (i : ℚ) / 22049 else 1 := by
  have hfd : fade_samples.toNat = 22050 := by rw [fade_samples_eq]; rfl
  simp only [om_envelope, np_linspace_incl, hfd]
  by_cases h1 : n - 22050 ≤ i
  · rw [if_pos ⟨h1, hi⟩, if_pos h1]
    push_cast
    ring
  · rw [if_neg (fun hc => h1 hc.1), if_neg h1]
    by_cases h2 : i < 22050
    · rw [if_pos h2, if_pos h2]
      push_cast
      ring
    · rw [if_neg h2, if_neg h2]

lemma py_trunc_dist (x : ℝ) : |(py_trunc x : ℝ) - x| ≤ 1 := by
  rw [py_trunc]
  by_cases h : 0 ≤ x
  · rw [if_pos h, abs_sub_comm, abs_of_nonneg (sub_nonneg.mpr (Int.floor_le x))]
    linarith [Int.lt_floor_add_one x]
  · rw [if_neg h, abs_of_nonneg (sub_nonneg.mpr (Int.le_ceil x))]
    linarith [Int.ceil_lt_add_one x]

lemma py_trunc_range (x : ℝ) (h1 : -32767 ≤ x) (h2 : x ≤ 32767) :
    -32767 ≤ py_trunc x ∧ py_trunc x ≤ 32767 := by
  rw [py_trunc]
  by_cases h : 0 ≤ x
  · rw [if_pos h]
    constructor
    · have : (0 : ℤ) ≤ ⌊x⌋ := Int.floor_nonneg.mpr h
      omega
    · have : (⌊x⌋ : ℝ) ≤ 32767 := le_trans (Int.floor_le x) h2
      exact_mod_cast this
  · rw [if_neg h]
    constructor
    · have : (-32767 : ℝ) ≤ (⌈x⌉ : ℝ) := le_trans h1 (Int.le_ceil x)
      exact_mod_cast this
    · have : ⌈x⌉ ≤ 0 := Int.ceil_le.mpr (by exact_mod_cast le_of_not_le h)
      omega

/-! ## Claim theorems -/

/-- C10: for every duration strictly between 0 and 0.5 seconds the Om
generator does not return a buffer: the 0.5-second fade ramp (22050
samples) is longer than the whole buffer, so assigning it into the
shorter envelope slice raises a broadcast error instead of producing
output. -/
theorem om_short_duration_raises (d a : ℚ) (hd1 : 0 < d) (hd2 : d < 1/2) :
    generate_om_tone d a = Except.error broadcast_msg := by
  have hnn : (0 : ℚ) ≤ SAMPLE_RATE * d :=
    mul_nonneg SAMPLE_RATE_nonneg hd1.le
  have h0 : 0 ≤ pyInt (SAMPLE_RATE * d) := pyInt_nonneg hnn
  have hlt : pyInt (SAMPLE_RATE * d) < 22050 := by
    rw [pyInt_eq_floor hnn]
    refine Int.floor_lt.mpr ?_
    push_cast
    norm_num [SAMPLE_RATE]
    linarith
  rw [generate_om_tone, np_linspace0_eq_ok d h0, bind_ok]
  refine if_pos ?_
  rw [fade_samples_eq]
  show ((pyInt (SAMPLE_RATE * d)).toNat : ℤ) < 22050
  omega

/-- Witness for `om_short_duration_raises` at duration 1/4 second. -/
theorem om_short_duration_raises_witness :
    (0 : ℚ) < 1/4 ∧ (1/4 : ℚ) < 1/2 ∧
      generate_om_tone (1/4) (8/10) = Except.error broadcast_msg :=
  ⟨by norm_num, by norm_num,
    om_short_duration_raises (1/4) (8/10) (by norm_num) (by norm_num)⟩

/-- C2: each sample of the frequency sweep is
`amplitude * sin(2 pi (start t + (end - start) t^2 / (2 duration)))`,
the quadratic integral phase, evaluated at the grid point `t`. -/
theorem sweep_integral_phase (s e d a : ℚ) (i : ℕ) (hd : 0 < d)
    (hi : i < bufN (generate_frequency_sweep s e d a)) :
    bufSample (generate_frequency_sweep s e d a) i =
      (a : ℝ) * Real.sin (2 * Real.pi *
        ((s : ℝ) * (time_t d i : ℝ) +
          ((e : ℝ) - (s : ℝ)) * (time_t d i : ℝ) ^ 2 / (2 * (d : ℝ)))) := by
  have hnn : (0 : ℚ) ≤ SAMPLE_RATE * d := mul_nonneg SAMPLE_RATE_nonneg hd.le
  have h0 := pyInt_nonneg hnn
  rw [sweep_sample s e d a h0 i, time_t_eq d h0 i]
  push_cast
  ring_nf

/-- Witness for `sweep_integral_phase` at start 440, end 10,
duration 1, index 0. -/
theorem sweep_integral_phase_witness :
    (0 : ℚ) < 1 ∧ 0 < bufN (generate_frequency_sweep 440 10 1 (8/10)) ∧
    bufSample (generate_frequency_sweep 440 10 1 (8/10)) 0 =
      ((8/10 : ℚ) : ℝ) * Real.sin (2 * Real.pi *
        (((440 : ℚ) : ℝ) * (time_t 1 0 : ℝ) +
          (((10 : ℚ) : ℝ) - ((440 : ℚ) : ℝ)) * (time_t 1 0 : ℝ) ^ 2 /
            (2 * ((1 : ℚ) : ℝ)))) := by
  have hb : 0 < bufN (generate_frequency_sweep 440 10 1 (8/10)) := by
    rw [bufN_sweep 440 10 1 (8/10) (by rw [pyInt_SR_one]; norm_num), pyInt_SR_one]
    norm_num
  exact ⟨by norm_num, hb,
    sweep_integral_phase 440 10 1 (8/10) 0 (by norm_num) hb⟩

/-- C6: each Layered sample is the amplitude times the sum of
unit-amplitude sinusoids at the listed frequencies divided by the
frequency count, and (for a nonnegative amplitude) its absolute value
never exceeds the amplitude, independent of how many frequencies are
listed. -/
theorem layered_normalized_bounded (freqs : List ℚ) (d a : ℚ) (i : ℕ)
    (hne : freqs ≠ []) (ha : 0 ≤ a)
    (hi : i < bufN (generate_layered_frequencies freqs d a)) :
    bufSample (generate_layered_frequencies freqs d a) i =
      (a : ℝ) * ((freqs.map fun (f : ℚ) =>
          Real.sin (2 * Real.pi * (f : ℝ) * (time_t d i : ℝ))).sum) /
        (freqs.length : ℝ) ∧
    |bufSample (generate_layered_frequencies freqs d a) i| ≤ (a : ℝ) := by
  by_cases h0 : 0 ≤ pyInt (SAMPLE_RATE * d)
  · have hform : bufSample (generate_layered_frequencies freqs d a) i =
        (a : ℝ) * ((freqs.map fun (f : ℚ) =>
            Real.sin (2 * Real.pi * (f : ℝ) * (time_t d i : ℝ))).sum) /
          (freqs.length : ℝ) := by
      rw [layered_sample freqs d a h0 i, time_t_eq d h0 i]
    refine ⟨hform, ?_⟩
    rw [hform]
    have haR : (0 : ℝ) ≤ (a : ℝ) := by exact_mod_cast ha
    have hS : |(freqs.map fun (f : ℚ) =>
        Real.sin (2 * Real.pi * (f : ℝ) * (time_t d i : ℝ))).sum| ≤
        ((freqs.map fun (f : ℚ) =>
          Real.sin (2 * Real.pi * (f : ℝ) * (time_t d i : ℝ))).length : ℝ) := by
      refine abs_list_sum_le _ ?_
      intro x hx
      obtain ⟨g, hg, rfl⟩ := List.mem_map.mp hx
      exact Real.abs_sin_le_one _
    have hL : (0 : ℝ) < (freqs.length : ℝ) := by
      have := List.length_pos.mpr hne
      exact_mod_cast this
    rw [abs_div, abs_mul, abs_of_nonneg haR, abs_of_nonneg hL.le,
      div_le_iff hL]
    refine le_trans (mul_le_mul_of_nonneg_left hS haR) ?_
    rw [List.length_map]
  · exfalso
    have hg := np_linspace0_eq_error d (by omega)
    rw [generate_layered_frequencies, hg, map_error, bufN_error] at hi
    omega

/-- Witness for `layered_normalized_bounded` with one frequency,
duration 1, index 0. -/
theorem layered_normalized_bounded_witness :
    ([(432 : ℚ)] ≠ [] ∧ (0 : ℚ) ≤ 8/10 ∧
      0 < bufN (generate_layered_frequencies [432] 1 (8/10))) ∧
    (bufSample (generate_layered_frequencies [432] 1 (8/10)) 0 =
        ((8/10 : ℚ) : ℝ) * (([(432 : ℚ)].map fun (f : ℚ) =>
            Real.sin (2 * Real.pi * (f : ℝ) * (time_t 1 0 : ℝ))).sum) /
          (([(432 : ℚ)].length : ℝ)) ∧
      |bufSample (generate_layered_frequencies [432] 1 (8/10)) 0| ≤
        ((8/10 : ℚ) : ℝ)) := by
  have hb : 0 < bufN (generate_layered_frequencies [432] 1 (8/10)) := by
    rw [bufN_layered [432] 1 (8/10) (by rw [pyInt_SR_one]; norm_num), pyInt_SR_one]
    norm_num
  exact ⟨⟨by simp, by norm_num, hb⟩,
    layered_normalized_bounded [432] 1 (8/10) 0 (by simp) (by norm_num) hb⟩

/-- C7: each isochronic sample is the carrier sinusoid multiplied by
the explicitly clipped envelope `clip(0.5 (1 + sin(2 pi pulse t)), 0, 1)`,
and (for a nonnegative amplitude) its absolute value never exceeds the
amplitude. -/
theorem isochronic_clipped_bounded (f p d a : ℚ) (i : ℕ) (ha : 0 ≤ a)
    (hi : i < bufN (generate_isochronic_tone f p d a)) :
    bufSample (generate_isochronic_tone f p d a) i =
      (a : ℝ) * Real.sin (2 * Real.pi * (f : ℝ) * (time_t d i : ℝ)) *
        np_clip ((1/2) * (1 + Real.sin (2 * Real.pi * (p : ℝ) * (time_t d i : ℝ)))) 0 1 ∧
    |bufSample (generate_isochronic_tone f p d a) i| ≤ (a : ℝ) := by
  by_cases h0 : 0 ≤ pyInt (SAMPLE_RATE * d)
  · have hform : bufSample (generate_isochronic_tone f p d a) i =
        (a : ℝ) * Real.sin (2 * Real.pi * (f : ℝ) * (time_t d i : ℝ)) *
          np_clip ((1/2) * (1 + Real.sin (2 * Real.pi * (p : ℝ) * (time_t d i : ℝ)))) 0 1 := by
      rw [isochronic_sample f p d a h0 i, time_t_eq d h0 i]
    refine ⟨hform, ?_⟩
    rw [hform]
    have haR : (0 : ℝ) ≤ (a : ℝ) := by exact_mod_cast ha
    have hC : |Real.sin (2 * Real.pi * (f : ℝ) * (time_t d i : ℝ))| ≤ 1 :=
      Real.abs_sin_le_one _
    have hE0 : (0 : ℝ) ≤
        np_clip ((1/2) * (1 + Real.sin (2 * Real.pi * (p : ℝ) * (time_t d i : ℝ)))) 0 1 :=
      le_min (le_max_right _ _) zero_le_one
    have hE1 : np_clip ((1/2) * (1 + Real.sin (2 * Real.pi * (p : ℝ) * (time_t d i : ℝ)))) 0 1 ≤ 1 :=
      min_le_right _ _
    rw [abs_mul, abs_mul, abs_of_nonneg haR, abs_of_nonneg hE0]
    calc (a : ℝ) * |Real.sin (2 * Real.pi * (f : ℝ) * (time_t d i : ℝ))| *
          np_clip ((1/2) * (1 + Real.sin (2 * Real.pi * (p : ℝ) * (time_t d i : ℝ)))) 0 1
        ≤ (a : ℝ) * 1 * 1 := by
          refine mul_le_mul (mul_le_mul_of_nonneg_left hC haR) hE1 hE0 ?_
          rw [mul_one]
          exact haR
      _ = (a : ℝ) := by ring
  · exfalso
    have hg := np_linspace0_eq_error d (by omega)
    rw [generate_isochronic_tone, hg, map_error, bufN_error] at hi
    omega

/-- Witness for `isochronic_clipped_bounded` at carrier 200, pulse
7.83, duration 1, index 0. -/
theorem isochronic_clipped_bounded_witness :
    ((0 : ℚ) ≤ 8/10 ∧ 0 < bufN (generate_isochronic_tone 200 (783/100) 1 (8/10))) ∧
    (bufSample (generate_isochronic_tone 200 (783/100) 1 (8/10)) 0 =
        ((8/10 : ℚ) : ℝ) *
          Real.sin (2 * Real.pi * ((200 : ℚ) : ℝ) * (time_t 1 0 : ℝ)) *
          np_clip ((1/2) *
            (1 + Real.sin (2 * Real.pi * ((783/100 : ℚ) : ℝ) * (time_t 1 0 : ℝ)))) 0 1 ∧
      |bufSample (generate_isochronic_tone 200 (783/100) 1 (8/10)) 0| ≤
        ((8/10 : ℚ) : ℝ)) := by
  have hb : 0 < bufN (generate_isochronic_tone 200 (783/100) 1 (8/10)) := by
    rw [bufN_isochronic 200 (783/100) 1 (8/10) (by rw [pyInt_SR_one]; norm_num),
      pyInt_SR_one]
    norm_num
  exact ⟨⟨by norm_num, hb⟩,
    isochronic_clipped_bounded 200 (783/100) 1 (8/10) 0 (by norm_num) hb⟩

/-- C5: each Om sample is the amplitude times the weighted harmonic
stack `sin(2 pi 136.1 t) + 0.5 sin(2 pi 272.2 t) + 0.25 sin(2 pi 408.3 t)`
times the envelope divided by 1.75, where the envelope ramps linearly
0 to 1 over the first 22050 samples (0.5 s) and 1 to 0 over the last
22050 samples, and the fade-out write takes precedence in the region
where the two fade windows overlap. -/
theorem om_tone_formula (d a : ℚ) (i : ℕ) (hd : 1/2 ≤ d)
    (hi : i < bufN (generate_om_tone d a)) :
    bufSample (generate_om_tone d a) i =
      (a : ℝ) *
        (Real.sin (2 * Real.pi * ((1361/10 : ℚ) : ℝ) * (time_t d i : ℝ)) +
          (1/2) * Real.sin (2 * Real.pi * ((2722/10 : ℚ) : ℝ) * (time_t d i : ℝ)) +
          (1/4) * Real.sin (2 * Real.pi * ((4083/10 : ℚ) : ℝ) * (time_t d i : ℝ))) *
        (((if bufN (generate_om_tone d a) - 22050 ≤ i then
              1 - ((i - (bufN (generate_om_tone d a) - 22050) : ℕ) : ℚ) / 22049
            else if i < 22050 then (i : ℚ) / 22049 else 1) : ℚ) : ℝ) / (7/4) := by
  have hd0 : (0 : ℚ) < d := lt_of_lt_of_le (by norm_num) hd
  have hnn : (0 : ℚ) ≤ SAMPLE_RATE * d := mul_nonneg SAMPLE_RATE_nonneg hd0.le
  have h0 := pyInt_nonneg hnn
  have h22 : 22050 ≤ pyInt (SAMPLE_RATE * d) := by
    rw [pyInt_eq_floor hnn]
    refine Int.le_floor.mpr ?_
    push_cast
    norm_num [SAMPLE_RATE]
    linarith
  have hfa : ¬ ((pyInt (SAMPLE_RATE * d)).toNat : ℤ) < fade_samples := by
    rw [fade_samples_eq]
    omega
  have hbufN : bufN (generate_om_tone d a) = (pyInt (SAMPLE_RATE * d)).toNat := by
    rw [generate_om_tone_eq_ok d a h0 hfa, bufN_ok]
  have hiN : i < (pyInt (SAMPLE_RATE * d)).toNat := by
    rw [hbufN] at hi
    exact hi
  have hN22 : 22050 ≤ (pyInt (SAMPLE_RATE * d)).toNat := by omega
  have henv := om_envelope_eq ((pyInt (SAMPLE_RATE * d)).toNat) i hN22 hiN
  have e2 : ((1361/10 : ℚ) * 2 : ℚ) = (2722/10 : ℚ) := by norm_num
  have e3 : ((1361/10 : ℚ) * 3 : ℚ) = (4083/10 : ℚ) := by norm_num
  rw [om_sample d a h0 hfa i, henv, hbufN, time_t_eq d h0 i, e2, e3]

/-- Witness for `om_tone_formula` at duration 1, index 0. -/
theorem om_tone_formula_witness :
    ((1/2 : ℚ) ≤ 1 ∧ 0 < bufN (generate_om_tone 1 (8/10))) ∧
    bufSample (generate_om_tone 1 (8/10)) 0 =
      ((8/10 : ℚ) : ℝ) *
        (Real.sin (2 * Real.pi * ((1361/10 : ℚ) : ℝ) * (time_t 1 0 : ℝ)) +
          (1/2) * Real.sin (2 * Real.pi * ((2722/10 : ℚ) : ℝ) * (time_t 1 0 : ℝ)) +
          (1/4) * Real.sin (2 * Real.pi * ((4083/10 : ℚ) : ℝ) * (time_t 1 0 : ℝ))) *
        (((if bufN (generate_om_tone 1 (8/10)) - 22050 ≤ 0 then
              1 - ((0 - (bufN (generate_om_tone 1 (8/10)) - 22050) : ℕ) : ℚ) / 22049
            else if 0 < 22050 then ((0 : ℕ) : ℚ) / 22049 else 1) : ℚ) : ℝ) / (7/4) := by
  have h0 : 0 ≤ pyInt (SAMPLE_RATE * 1) := by
    rw [pyInt_SR_one]
    norm_num
  have hfa : ¬ ((pyInt (SAMPLE_RATE * 1)).toNat : ℤ) < fade_samples := by
    rw [pyInt_SR_one, fade_samples_eq]
    norm_num
  have hb : 0 < bufN (generate_om_tone 1 (8/10)) := by
    rw [generate_om_tone_eq_ok 1 (8/10) h0 hfa, bufN_ok, pyInt_SR_one]
    norm_num
  exact ⟨⟨by norm_num, hb⟩, om_tone_formula 1 (8/10) 0 (by norm_num) hb⟩

/-- C1 counterexample: the encoder truncates toward zero instead of
rounding: the float sample 9/327670 (whose scaled value is 0.9) encodes
to 0, while round(0.9) is 1. -/
theorem save_wav_not_round :
    save_wav_encode ⟨1, fun _ => (9 : ℝ)/327670⟩ 0 = 0 ∧
    round (((9 : ℝ)/327670) * 32767) = 1 := by
  constructor
  · show save_wav_sample ((9 : ℝ)/327670) = 0
    rw [save_wav_sample, astype_int16, py_trunc, if_pos (by norm_num)]
    have hf : ⌊(9 : ℝ)/327670 * 32767⌋ = 0 := by norm_num
    rw [hf, int16_wrap]
    norm_num
  · norm_num [round_eq]

/-- C1 amended: the encoder maps each float sample `s` of any buffer to
the truncation toward zero (not the rounding) of `s * 32767`, taken as
a 16-bit signed integer without clamping: the result always lies in
`[-32768, 32767]` and is congruent to the truncated value modulo
`2^16`, so a sample outside `[-1, 1]` wraps (e.g. 1.5 encodes to
-16386) rather than saturating. -/
theorem save_wav_truncates_and_wraps (b : Buffer) (i : ℕ) :
    (-32768 ≤ save_wav_encode b i ∧ save_wav_encode b i ≤ 32767 ∧
      (save_wav_encode b i - py_trunc (b.sample i * 32767)) % 65536 = 0) ∧
    save_wav_encode ⟨1, fun _ => (3 : ℝ)/2⟩ 0 = -16386 := by
  constructor
  · have hdef : save_wav_encode b i = int16_wrap (py_trunc (b.sample i * 32767)) := rfl
    rw [hdef, int16_wrap]
    refine ⟨by omega, by omega, by omega⟩
  · show save_wav_sample ((3 : ℝ)/2) = -16386
    rw [save_wav_sample, astype_int16, py_trunc, if_pos (by norm_num)]
    have hf : ⌊(3 : ℝ)/2 * 32767⌋ = 49150 := by norm_num
    rw [hf, int16_wrap]
    norm_num

/-- C9: encoding a float sample in [-1, 1] to 16-bit fixed point and
decoding back by dividing by 32767 reproduces the sample to within one
least significant bit. -/
theorem pcm16_round_trip (s : ℝ) (h1 : -1 ≤ s) (h2 : s ≤ 1) :
    |decode_pcm16 (save_wav_sample s) - s| ≤ 1 / 32767 := by
  have hx1 : (-32767 : ℝ) ≤ s * 32767 := by nlinarith
  have hx2 : s * 32767 ≤ 32767 := by nlinarith
  obtain ⟨hq1, hq2⟩ := py_trunc_range (s * 32767) hx1 hx2
  have hwrap : save_wav_sample s = py_trunc (s * 32767) := by
    rw [save_wav_sample, astype_int16, int16_wrap]
    omega
  have hdist := py_trunc_dist (s * 32767)
  rw [decode_pcm16, hwrap]
  have hrw : (py_trunc (s * 32767) : ℝ) / 32767 - s =
      ((py_trunc (s * 32767) : ℝ) - s * 32767) / 32767 := by ring
  rw [hrw, abs_div, abs_of_nonneg (by norm_num : (0 : ℝ) ≤ (32767 : ℝ))]
  rw [div_le_div_iff (by norm_num) (by norm_num)]
  linarith

/-- Witness for `pcm16_round_trip` at sample 1/2. -/
theorem pcm16_round_trip_witness :
    (-1 : ℝ) ≤ 1/2 ∧ (1/2 : ℝ) ≤ 1 ∧
    |decode_pcm16 (save_wav_sample (1/2)) - 1/2| ≤ 1 / 32767 :=
  ⟨by norm_num, by norm_num, pcm16_round_trip (1/2) (by norm_num) (by norm_num)⟩

/-- C4 counterexample: at duration -1 second the sample count passed to
the grid construction is -44100, so the generator raises a ValueError
instead of returning an empty buffer. -/
theorem negative_duration_raises :
    isOkE (generate_sine_wave 440 (-1) (8/10)) = false := by
  have h : pyInt (SAMPLE_RATE * (-1)) < 0 := pyInt_neg (by norm_num [SAMPLE_RATE])
  rw [generate_sine_wave, np_linspace0_eq_error _ h, map_error, isOkE_error]

/-- C4 amended: for duration ≤ 0 the non-Om generators return an empty
buffer without error exactly when `SAMPLE_RATE * duration > -1` (in
particular at duration 0); otherwise the negative sample count raises a
ValueError.  The Om generator errors for every duration ≤ 0, because
its 22050-sample fade ramp cannot be assigned into the empty buffer. -/
theorem nonpositive_duration_contract (d f p b0 a : ℚ) (freqs : List ℚ)
    (hd : d ≤ 0) :
    ((isOkE (generate_sine_wave f d a) = true) ↔ (-1 < SAMPLE_RATE * d)) ∧
    bufN (generate_sine_wave f d a) = 0 ∧
    ((isOkE (generate_binaural_beat b0 f d a) = true) ↔ (-1 < SAMPLE_RATE * d)) ∧
    sbufN (generate_binaural_beat b0 f d a) = 0 ∧
    ((isOkE (generate_isochronic_tone f p d a) = true) ↔ (-1 < SAMPLE_RATE * d)) ∧
    bufN (generate_isochronic_tone f p d a) = 0 ∧
    ((isOkE (generate_frequency_sweep f p d a) = true) ↔ (-1 < SAMPLE_RATE * d)) ∧
    bufN (generate_frequency_sweep f p d a) = 0 ∧
    ((isOkE (generate_layered_frequencies freqs d a) = true) ↔ (-1 < SAMPLE_RATE * d)) ∧
    bufN (generate_layered_frequencies freqs d a) = 0 ∧
    isOkE (generate_om_tone d a) = false ∧
    bufN (generate_om_tone d a) = 0 := by
  have hnp : SAMPLE_RATE * d ≤ 0 :=
    mul_nonpos_iff.mpr (Or.inl ⟨SAMPLE_RATE_nonneg, hd⟩)
  by_cases hcase : -1 < SAMPLE_RATE * d
  · have hpy : pyInt (SAMPLE_RATE * d) = 0 := pyInt_eq_zero hnp hcase
    have hg : np_linspace0 d =
        Except.ok ⟨0, fun i => d * i / (((0 : ℕ) : ℚ))⟩ := by
      simpa [hpy] using np_linspace0_eq_ok d (by omega)
    have hom : generate_om_tone d a = Except.error broadcast_msg := by
      rw [generate_om_tone, hg, bind_ok]
      exact if_pos (by rw [fade_samples_eq]; norm_num)
    refine ⟨?_, ?_, ?_, ?_, ?_, ?_, ?_, ?_, ?_, ?_, ?_, ?_⟩
    · rw [generate_sine_wave, hg, map_ok, isOkE_ok]; simpa using hcase
    · rw [generate_sine_wave, hg, map_ok, bufN_ok]
    · rw [generate_binaural_beat, hg, map_ok, isOkE_ok]; simpa using hcase
    · rw [generate_binaural_beat, hg, map_ok, sbufN_ok]
    · rw [generate_isochronic_tone, hg, map_ok, isOkE_ok]; simpa using hcase
    · rw [generate_isochronic_tone, hg, map_ok, bufN_ok]
    · rw [generate_frequency_sweep, hg, map_ok, isOkE_ok]; simpa using hcase
    · rw [generate_frequency_sweep, hg, map_ok, bufN_ok]
    · rw [generate_layered_frequencies, hg, map_ok, isOkE_ok]; simpa using hcase
    · rw [generate_layered_frequencies, hg, map_ok, bufN_ok]
    · rw [hom, isOkE_error]
    · rw [hom, bufN_error]
  · have hpy : pyInt (SAMPLE_RATE * d) < 0 := pyInt_neg (by linarith [not_lt.mp hcase])
    have hg := np_linspace0_eq_error d hpy
    have hom : generate_om_tone d a = Except.error linspace_msg := by
      rw [generate_om_tone, hg, bind_error]
    refine ⟨?_, ?_, ?_, ?_, ?_, ?_, ?_, ?_, ?_, ?_, ?_, ?_⟩
    · rw [generate_sine_wave, hg, map_error, isOkE_error]; simpa using hcase
    · rw [generate_sine_wave, hg, map_error, bufN_error]
    · rw [generate_binaural_beat, hg, map_error, isOkE_error]; simpa using hcase
    · rw [generate_binaural_beat, hg, map_error, sbufN_error]
    · rw [generate_isochronic_tone, hg, map_error, isOkE_error]; simpa using hcase
    · rw [generate_isochronic_tone, hg, map_error, bufN_error]
    · rw [generate_frequency_sweep, hg, map_error, isOkE_error]; simpa using hcase
    · rw [generate_frequency_sweep, hg, map_error, bufN_error]
    · rw [generate_layered_frequencies, hg, map_error, isOkE_error]; simpa using hcase
    · rw [generate_layered_frequencies, hg, map_error, bufN_error]
    · rw [hom, isOkE_error]
    · rw [hom, bufN_error]

/-- Witness for `nonpositive_duration_contract` at duration 0. -/
theorem nonpositive_duration_contract_witness :
    (0 : ℚ) ≤ 0 ∧
    (((isOkE (generate_sine_wave 440 0 (8/10)) = true) ↔ (-1 < SAMPLE_RATE * 0)) ∧
      bufN (generate_sine_wave 440 0 (8/10)) = 0 ∧
      ((isOkE (generate_binaural_beat 200 440 0 (8/10)) = true) ↔ (-1 < SAMPLE_RATE * 0)) ∧
      sbufN (generate_binaural_beat 200 440 0 (8/10)) = 0 ∧
      ((isOkE (generate_isochronic_tone 440 10 0 (8/10)) = true) ↔ (-1 < SAMPLE_RATE * 0)) ∧
      bufN (generate_isochronic_tone 440 10 0 (8/10)) = 0 ∧
      ((isOkE (generate_frequency_sweep 440 10 0 (8/10)) = true) ↔ (-1 < SAMPLE_RATE * 0)) ∧
      bufN (generate_frequency_sweep 440 10 0 (8/10)) = 0 ∧
      ((isOkE (generate_layered_frequencies [432] 0 (8/10)) = true) ↔ (-1 < SAMPLE_RATE * 0)) ∧
      bufN (generate_layered_frequencies [432] 0 (8/10)) = 0 ∧
      isOkE (generate_om_tone 0 (8/10)) = false ∧
      bufN (generate_om_tone 0 (8/10)) = 0) :=
  ⟨le_refl 0, nonpositive_duration_contract 0 440 10 200 (8/10) [432] (le_refl 0)⟩

/-- C8 counterexample: at frequency 0 the sine generator does not fail
fast; it succeeds and silently produces a degenerate (zero) buffer. -/
theorem zero_frequency_accepted :
    isOkE (generate_sine_wave 0 1 (8/10)) = true ∧
    bufSample (generate_sine_wave 0 1 (8/10)) 0 = 0 := by
  have h0 : 0 ≤ pyInt (SAMPLE_RATE * 1) := pyInt_nonneg (by norm_num [SAMPLE_RATE])
  rw [generate_sine_wave, np_linspace0_eq_ok 1 h0, map_ok]
  refine ⟨isOkE_ok _, ?_⟩
  rw [bufSample_ok]
  simp

/-- C8 amended: a non-positive frequency is not validated: for any
duration > 0 the sine generator succeeds and returns the usual
grid-length buffer rather than reporting an error. -/
theorem nonpositive_frequency_accepted (f d a : ℚ) (hf : f ≤ 0) (hd : 0 < d) :
    isOkE (generate_sine_wave f d a) = true ∧
    bufN (generate_sine_wave f d a) = gridN d := by
  have h0 : 0 ≤ pyInt (SAMPLE_RATE * d) :=
    pyInt_nonneg (mul_nonneg SAMPLE_RATE_nonneg hd.le)
  rw [generate_sine_wave, gridN, np_linspace0_eq_ok d h0, map_ok, rbufN_ok]
  exact ⟨isOkE_ok _, bufN_ok _⟩

/-- C3: for every duration > 0 the time grid has exactly
`floor(SAMPLE_RATE * duration)` values, evenly spaced with step
`duration / N`, covering `[0, duration)` with the right endpoint
excluded; and every generator invoked with that duration produces a
buffer of exactly the grid length (the Om generator whenever it
returns at all). -/
theorem time_grid_spec (d f b0 p a : ℚ) (freqs : List ℚ) (i : ℕ)
    (hd : 0 < d) (hi : i < gridN d) :
    (gridN d : ℤ) = ⌊SAMPLE_RATE * d⌋ ∧
    0 ≤ time_t d i ∧ time_t d i < d ∧
    (i + 1 < gridN d → time_t d (i + 1) - time_t d i = d / (gridN d : ℚ)) ∧
    bufN (generate_sine_wave f d a) = gridN d ∧
    sbufN (generate_binaural_beat b0 p d a) = gridN d ∧
    bufN (generate_isochronic_tone f p d a) = gridN d ∧
    bufN (generate_frequency_sweep f p d a) = gridN d ∧
    bufN (generate_layered_frequencies freqs d a) = gridN d ∧
    (bufN (generate_om_tone d a) = gridN d ∨ isOkE (generate_om_tone d a) = false) := by
  have hnn : (0 : ℚ) ≤ SAMPLE_RATE * d := mul_nonneg SAMPLE_RATE_nonneg hd.le
  have h0 : 0 ≤ pyInt (SAMPLE_RATE * d) := pyInt_nonneg hnn
  have hg := np_linspace0_eq_ok d h0
  have hgN : gridN d = (pyInt (SAMPLE_RATE * d)).toNat := gridN_eq d h0
  have hNpos : 0 < gridN d := by omega
  have hNQ : (0 : ℚ) < (gridN d : ℚ) := by exact_mod_cast hNpos
  have ht : ∀ j : ℕ, time_t d j = d * j / (gridN d : ℚ) := by
    intro j
    rw [time_t, hg, rbufSample_ok, hgN]
  refine ⟨?_, ?_, ?_, ?_, ?_, ?_, ?_, ?_, ?_, ?_⟩
  · rw [hgN, Int.toNat_of_nonneg h0, pyInt_eq_floor hnn]
  · rw [ht i]
    positivity
  · rw [ht i, div_lt_iff hNQ]
    have hiN : (i : ℚ) < (gridN d : ℚ) := by exact_mod_cast hi
    nlinarith
  · intro hi2
    rw [ht (i + 1), ht i]
    field_simp
    ring
  · rw [generate_sine_wave, hg, map_ok, bufN_ok, hgN]
  · rw [generate_binaural_beat, hg, map_ok, sbufN_ok, hgN]
  · rw [generate_isochronic_tone, hg, map_ok, bufN_ok, hgN]
  · rw [generate_frequency_sweep, hg, map_ok, bufN_ok, hgN]
  · rw [generate_layered_frequencies, hg, map_ok, bufN_ok, hgN]
  · by_cases hfa : ((pyInt (SAMPLE_RATE * d)).toNat : ℤ) < fade_samples
    · right
      rw [generate_om_tone_eq_error d a h0 hfa, isOkE_error]
    · left
      rw [generate_om_tone_eq_ok d a h0 hfa, bufN_ok, hgN]

/-- Witness for `time_grid_spec` at duration 1, index 0. -/
theorem time_grid_spec_witness :
    (0 : ℚ) < 1 ∧ 0 < gridN 1 ∧
    ((gridN 1 : ℤ) = ⌊SAMPLE_RATE * 1⌋ ∧
      0 ≤ time_t 1 0 ∧ time_t 1 0 < 1 ∧
      (0 + 1 < gridN 1 → time_t 1 (0 + 1) - time_t 1 0 = 1 / (gridN 1 : ℚ)) ∧
      bufN (generate_sine_wave 440 1 (8/10)) = gridN 1 ∧
      sbufN (generate_binaural_beat 200 10 1 (8/10)) = gridN 1 ∧
      bufN (generate_isochronic_tone 440 10 1 (8/10)) = gridN 1 ∧
      bufN (generate_frequency_sweep 440 10 1 (8/10)) = gridN 1 ∧
      bufN (generate_layered_frequencies [432] 1 (8/10)) = gridN 1 ∧
      (bufN (generate_om_tone 1 (8/10)) = gridN 1 ∨
        isOkE (generate_om_tone 1 (8/10)) = false)) :=
  ⟨by norm_num, by rw [gridN_one]; norm_num,
    time_grid_spec 1 440 200 10 (8/10) [432] 0 (by norm_num)
      (by rw [gridN_one]; norm_num)⟩

/-- Witness for `nonpositive_frequency_accepted` at frequency 0,
duration 1. -/
theorem nonpositive_frequency_accepted_witness :
    (0 : ℚ) ≤ 0 ∧ (0 : ℚ) < 1 ∧
    (isOkE (generate_sine_wave 0 1 (8/10)) = true ∧
      bufN (generate_sine_wave 0 1 (8/10)) = gridN 1) :=
  ⟨le_refl 0, by norm_num,
    nonpositive_frequency_accepted 0 1 (8/10) (le_refl 0) (by norm_num)⟩

end Spirit
